import Mathlib

/-!
# ResourceService: the request handlers of `app.js` over a document store

The service keeps one collection of `User` documents in MongoDB and answers
five routes.  The handlers of `app.js` are embedded as pure functions from a
request and a store to a response and a store.

Collaborators that live outside the repository are modelled as follows.

* The collection is a finite map from `_id` to the stored fields of a document
  (`Store`).  Update operators follow the MongoDB reference: `$inc` and `$max`
  on a missing field set the field to the operand, `$addToSet` on a missing
  field creates a one-element array, `$pull` on a missing field does nothing,
  and an upsert starts from a document that holds only its `_id`.
* `mongoose.Types.ObjectId` accepts a string of 24 hexadecimal characters (of
  either case) or a string of 12 characters and throws on any other string
  (`castObjectId`).
* `jwt.verify` with the public key is the function `Config.verify` from a token
  to the subject of its payload.
* Numbers are exact integers; the storage collaborator answers every operation
  it receives without a fault of its own.
-/

namespace ResourceService

/-! ## Identifiers -/

/-- The twelve bytes of a MongoDB object id. -/
structure ObjectId where
  bytes : List Nat
  deriving DecidableEq, Repr

/-- Value of one hexadecimal digit, of either case (`/^[0-9a-fA-F]{24}$/`). -/
def hexDigit (c : Char) : Option Nat :=
  if 48 ≤ c.toNat ∧ c.toNat ≤ 57 then some (c.toNat - 48)
  else if 97 ≤ c.toNat ∧ c.toNat ≤ 102 then some (c.toNat - 87)
  else if 65 ≤ c.toNat ∧ c.toNat ≤ 70 then some (c.toNat - 55)
  else none

/-- Bytes written by a string of hexadecimal digit pairs. -/
def hexBytes : List Char → Option (List Nat)
  | [] => some []
  | [_] => none
  | a :: b :: rest =>
    match hexDigit a, hexDigit b, hexBytes rest with
    | some x, some y, some r => some ((16 * x + y) :: r)
    | _, _, _ => none

/-- The cast `mongoose.Types.ObjectId(value)` on a string: `none` stands for the
thrown error. -/
def castObjectId (value : String) : Option ObjectId :=
  if value.toList.length = 24 then (hexBytes value.toList).map ObjectId.mk
  else if value.toList.length = 12 then some ⟨value.toList.map (fun c => c.toNat % 256)⟩
  else none

/-- Cast of every element of a list; one failing element fails the whole cast. -/
def castAll : List String → Option (List ObjectId)
  | [] => some []
  | v :: vs =>
    match castObjectId v, castAll vs with
    | some i, some is => some (i :: is)
    | _, _ => none

/-! ## Documents and the collection -/

/-- Stored fields of a `User` document (`UserSchema`), each possibly absent.  The
key `_id` is the index of the document in the store. -/
structure User where
  level : Option Int
  exp : Option Int
  totalKill : Option Int
  maxKill : Option Int
  totalPlay : Option Int
  friends : Option (List ObjectId)
  deriving DecidableEq, Repr

/-- The collection: at most one document per `_id`. -/
abbrev Store := ObjectId → Option User

/-- The collection without documents. -/
def emptyStore : Store := fun _ => none

/-- Replacement of the document stored under `i`. -/
def setDoc (s : Store) (i : ObjectId) (u : User) : Store :=
  fun j => if j = i then some u else s j

/-- Document an upsert starts from: nothing but the `_id` of the filter. -/
def blankUser : User :=
  { level := none, exp := none, totalKill := none, maxKill := none,
    totalPlay := none, friends := none }

/-- One update by `_id`: the matching document is rewritten by `f`; without a
match the upsert flag decides whether a new document is inserted. -/
def updateById (s : Store) (i : ObjectId) (f : User → User) (upsert : Bool) : Store :=
  match s i with
  | some u => setDoc s i (f u)
  | none => if upsert then setDoc s i (f blankUser) else s

/-- The operator `$inc` on one field. -/
def incField (field : Option Int) (amount : Int) : Option Int :=
  match field with
  | none => some amount
  | some v => some (v + amount)

/-- The operator `$max` on one field. -/
def maxField (field : Option Int) (candidate : Int) : Option Int :=
  match field with
  | none => some candidate
  | some v => if v < candidate then some candidate else some v

/-- The operator `$addToSet` on an array field. -/
def addToSet (field : Option (List ObjectId)) (x : ObjectId) : Option (List ObjectId) :=
  match field with
  | none => some [x]
  | some l => if x ∈ l then some l else some (l ++ [x])

/-- The operator `$pull` on an array field. -/
def pull (field : Option (List ObjectId)) (x : ObjectId) : Option (List ObjectId) :=
  match field with
  | none => none
  | some l => some (l.filter (fun y => y ≠ x))

/-! ## Requests and responses -/

/-- HTTP method of a request. -/
inductive Method where
  | GET
  | POST
  | OTHER
  deriving DecidableEq, Repr

/-- One element of the `progress` array of a game-save request. -/
structure Item where
  id : String
  totalKill : Int
  exp : Int
  maxKill : Int
  deriving DecidableEq, Repr

/-- The parts of a request the handlers read.  `path` is the route the router
matches, `queryUserId` holds the query parameter `user_id` (a single value is a
one-element list), `progress` is `none` when `body.progress` is not an array. -/
structure Request where
  method : Method
  path : String
  clientId : Option String
  queryUserId : Option (List String)
  authorization : Option String
  bodyUserId : Option String
  progress : Option (List Item)
  deriving DecidableEq, Repr

/-- Configuration read at start-up: `Config.ClientWhiteList` and the token
verification under the public key. -/
structure Config where
  clientWhiteList : List String
  verify : String → Option String

/-- A JSON value of a response body. -/
inductive Val where
  | null
  | bool (b : Bool)
  | num (n : Int)
  | str (s : String)
  | oid (i : ObjectId)
  | oids (l : List ObjectId)
  deriving DecidableEq, Repr

/-- A JSON object: its fields in order. -/
abbrev Obj := List (String × Val)

/-- Body of a response. -/
inductive Body where
  | empty
  | json (o : Obj)
  | jsonList (l : List Obj)
  deriving DecidableEq, Repr

/-- Status code and body of a response. -/
structure Response where
  status : Nat
  body : Body
  deriving DecidableEq, Repr

/-- Names of the fields of a JSON object. -/
def fieldNames (o : Obj) : List String := o.map Prod.fst

/-- The profile objects carried by a response. -/
def responseObjects (r : Response) : List Obj :=
  match r.body with
  | Body.jsonList l => l
  | _ => []

/-! ## Shared pieces of the handlers -/

/-- The validator `query("client_id").isIn(CLIENT_WHITELIST)`; an absent
parameter is checked as the empty string. -/
def clientAllowed (cfg : Config) (req : Request) : Bool :=
  decide ((req.clientId.getD "") ∈ cfg.clientWhiteList)

/-- Pieces of a string between single spaces (`header.split(" ")`). -/
def splitOnSpace : List Char → List (List Char)
  | [] => [[]]
  | c :: cs =>
    match splitOnSpace cs with
    | [] => [[]]
    | w :: ws => if c = ' ' then [] :: w :: ws else (c :: w) :: ws

/-- Source function `extractTokenFromHeader`: the second piece of the header,
`none` when there is no second piece. -/
def extractTokenFromHeader (header : String) : Option String :=
  ((splitOnSpace header.toList)[1]?).map String.mk

/-- The call `jwt.verify(token, AUTH_PUBLIC_KEY, ...)`: `none` is the error branch. -/
def jwtVerify (cfg : Config) (token : Option String) : Option String :=
  match token with
  | none => none
  | some t => cfg.verify t

/-- Documents whose `_id` is among `ids`, each once. -/
def findIn (s : Store) (ids : List ObjectId) : List (ObjectId × User) :=
  ids.dedup.filterMap (fun i => (s i).map (fun u => (i, u)))

/-- An included field of a `$project` stage: present exactly when stored. -/
def included (name : String) (v : Option Val) : Obj :=
  match v with
  | some x => [(name, x)]
  | none => []

/-- The `$project` stage of `GET /users/info` on one document. -/
def projectStage (d : ObjectId × User) : Obj :=
  [("_id", Val.oid d.1),
   ("level", match d.2.exp with
             | some e => Val.num (Int.fdiv e 200)
             | none => Val.null)]
  ++ included "totalKill" (d.2.totalKill.map Val.num)
  ++ included "maxKill" (d.2.maxKill.map Val.num)
  ++ included "exp" (d.2.exp.map Val.num)
  ++ included "totalPlay" (d.2.totalPlay.map Val.num)
  ++ included "friends" (d.2.friends.map Val.oids)

/-- The clone `Object.assign({ id: item._id }, item, {_id: undefined})` as it is
serialised: `_id` is dropped, `id` carries its value. -/
def cloneItem (item : Obj) : Obj :=
  match item.lookup "_id" with
  | some i => ("id", i) :: item.filter (fun kv => kv.1 ≠ "_id")
  | none => item.filter (fun kv => kv.1 ≠ "_id")

/-! ## The read routes -/

/-- Handler of `GET /users/info`. -/
def usersInfo (cfg : Config) (req : Request) (s : Store) : Response :=
  if clientAllowed cfg req ∧ req.queryUserId.isSome then
    match castAll (req.queryUserId.getD []) with
    | none => { status := 400, body := Body.empty }
    | some resultId =>
      let result := (findIn s resultId).map projectStage
      if result.length ≤ 0 then { status := 404, body := Body.empty }
      else { status := 200, body := Body.jsonList (result.map cloneItem) }
  else { status := 400, body := Body.empty }

/-- The query `User.find().where('_id').in(ids)`: the driver hands an array to
the callback, also when no document matches. -/
def findDocs (s : Store) (ids : List ObjectId) : Option (List (ObjectId × User)) :=
  some (findIn s ids)

/-- Handler of `GET /users/friends`.  A hydrated document without a stored
`friends` field reads as the empty array. -/
def usersFriends (cfg : Config) (req : Request) (s : Store) : Response :=
  if clientAllowed cfg req ∧ req.queryUserId.isSome then
    match castAll (req.queryUserId.getD []) with
    | none => { status := 500, body := Body.empty }
    | some ids =>
      match findDocs s ids with
      | none => { status := 404, body := Body.empty }
      | some doc =>
        { status := 200,
          body := Body.jsonList
            (doc.map (fun element =>
              [("id", Val.oid element.1), ("friends", Val.oids (element.2.friends.getD []))])) }
  else { status := 400, body := Body.empty }

/-! ## The access-token middleware and the write routes -/

/-- The test `!req.headers.authorization`: an absent or empty header. -/
def noAuthorization (req : Request) : Bool :=
  match req.authorization with
  | none => true
  | some h => decide (h = "")

/-- The middleware in front of every later route: `some r` ends the request with
`r`, `none` is the call of `next()`. -/
def accessGate (cfg : Config) (req : Request) : Option Response :=
  if clientAllowed cfg req then
    if noAuthorization req then
      some { status := 403, body := Body.json [("error", Val.str "No credentials sent!")] }
    else none
  else some { status := 400, body := Body.empty }

/-- Body of the 401 answer of `POST /users/addfriend`. -/
def authFailedBody : Body :=
  Body.json [("auth", Val.bool false), ("message", Val.str "Failed to authenticate token.")]

/-- Body of the 401 answer of the two other write routes. -/
def authFailedSavedBody : Body :=
  Body.json [("saved", Val.bool false), ("auth", Val.bool false),
             ("message", Val.str "Failed to authenticate token.")]

/-- Handler of `POST /users/addfriend`.  The update object is built, and the body
value cast, before mongoose casts the filter. -/
def addfriend (cfg : Config) (req : Request) (s : Store) : Response × Store :=
  match req.bodyUserId, req.authorization with
  | none, _ => ({ status := 400, body := Body.empty }, s)
  | some _, none => ({ status := 400, body := Body.empty }, s)
  | some userId, some header =>
    match jwtVerify cfg (extractTokenFromHeader header) with
    | none => ({ status := 401, body := authFailedBody }, s)
    | some sub =>
      if sub = userId then ({ status := 409, body := Body.empty }, s)
      else
        match castObjectId userId with
        | none => ({ status := 400, body := Body.empty }, s)
        | some friend =>
          match castObjectId sub with
          | none => ({ status := 500, body := Body.empty }, s)
          | some me =>
            ({ status := 201, body := Body.empty },
             updateById s me (fun u => { u with friends := addToSet u.friends friend }) true)

/-- Handler of `POST /users/removefriend`. -/
def removefriend (cfg : Config) (req : Request) (s : Store) : Response × Store :=
  match req.bodyUserId, req.authorization with
  | none, _ => ({ status := 400, body := Body.empty }, s)
  | some _, none => ({ status := 400, body := Body.empty }, s)
  | some userId, some header =>
    match jwtVerify cfg (extractTokenFromHeader header) with
    | none => ({ status := 401, body := authFailedSavedBody }, s)
    | some sub =>
      if sub = userId then ({ status := 409, body := Body.empty }, s)
      else
        match castObjectId userId with
        | none => ({ status := 400, body := Body.empty }, s)
        | some friend =>
          match castObjectId sub with
          | none => ({ status := 500, body := Body.empty }, s)
          | some me =>
            ({ status := 200, body := Body.empty },
             updateById s me (fun u => { u with friends := pull u.friends friend }) false)

/-- One `updateOne` element of the bulk operation. -/
structure UpdateOne where
  filterId : String
  incTotalPlay : Int
  incTotalKill : Int
  incExp : Int
  maxMaxKill : Int
  upsert : Bool
  deriving DecidableEq, Repr

/-- The operation built from one element of `req.body.progress`. -/
def toOperation (item : Item) : UpdateOne :=
  { filterId := item.id, incTotalPlay := 1, incTotalKill := item.totalKill,
    incExp := item.exp, maxMaxKill := item.maxKill, upsert := true }

/-- The update document of one operation on one stored document. -/
def applyUpdate (op : UpdateOne) (u : User) : User :=
  { u with
    totalPlay := incField u.totalPlay op.incTotalPlay
    totalKill := incField u.totalKill op.incTotalKill
    exp := incField u.exp op.incExp
    maxKill := maxField u.maxKill op.maxMaxKill }

/-- One operation of the bulk write, its filter already cast. -/
def applyOne (s : Store) (o : ObjectId × UpdateOne) : Store :=
  updateById s o.1 (applyUpdate o.2) o.2.upsert

/-- The call `User.bulkWrite(operation, ...)`: every filter is cast first (a
failing cast is the error branch, before anything is written), then the
operations run in order; an empty list writes nothing. -/
def bulkWrite (s : Store) (operation : List UpdateOne) : Option Store :=
  match castAll (operation.map (fun op => op.filterId)) with
  | none => none
  | some ids => some ((ids.zip operation).foldl applyOne s)

/-- Handler of `POST /users/gamesave/update`. -/
def gamesaveUpdate (cfg : Config) (req : Request) (s : Store) : Response × Store :=
  match req.progress, req.authorization with
  | none, _ => ({ status := 400, body := Body.empty }, s)
  | some _, none => ({ status := 400, body := Body.empty }, s)
  | some progress, some header =>
    match jwtVerify cfg (extractTokenFromHeader header) with
    | none => ({ status := 401, body := authFailedSavedBody }, s)
    | some _ =>
      match bulkWrite s (progress.map toOperation) with
      | none => ({ status := 500, body := Body.empty }, s)
      | some s2 => ({ status := 200, body := Body.json [("saved", Val.bool true)] }, s2)

/-- The application: the two read routes, then the middleware, then the three
write routes; a request no route takes is answered 404. -/
def app (cfg : Config) (req : Request) (s : Store) : Response × Store :=
  if req.method = Method.GET ∧ req.path = "/users/info" then (usersInfo cfg req s, s)
  else if req.method = Method.GET ∧ req.path = "/users/friends" then (usersFriends cfg req s, s)
  else
    match accessGate cfg req with
    | some r => (r, s)
    | none =>
      if req.method = Method.POST ∧ req.path = "/users/addfriend" then addfriend cfg req s
      else if req.method = Method.POST ∧ req.path = "/users/removefriend" then
        removefriend cfg req s
      else if req.method = Method.POST ∧ req.path = "/users/gamesave/update" then
        gamesaveUpdate cfg req s
      else ({ status := 404, body := Body.empty }, s)

/-- Store after a sequence of requests. -/
def runAll (cfg : Config) (reqs : List Request) (s : Store) : Store :=
  reqs.foldl (fun st r => (app cfg r st).2) s

/-! ## Test fixtures -/

/-- A configuration with one client and one token for each of two subjects. -/
def demoConfig : Config :=
  { clientWhiteList := ["game"],
    verify := fun t =>
      if t = "tokA" then some "aaaaaaaaaaaaaaaaaaaaaaaa"
      else if t = "tokB" then some "bbbbbbbbbbbbbbbbbbbbbbbb"
      else none }

/-- Object id written `aaaaaaaaaaaaaaaaaaaaaaaa`. -/
def idA : ObjectId := ⟨List.replicate 12 170⟩

/-- Object id written `bbbbbbbbbbbbbbbbbbbbbbbb`. -/
def idB : ObjectId := ⟨List.replicate 12 187⟩

/-- A write request of the allowed client with the token of subject `a...a`. -/
def postAs (path : String) (userId : Option String) (progress : Option (List Item)) : Request :=
  { method := Method.POST, path := path, clientId := some "game", queryUserId := none,
    authorization := some "Bearer tokA", bodyUserId := userId, progress := progress }

/-- A game-save request of the allowed client with a valid token. -/
def saveAs (items : List Item) : Request :=
  postAs "/users/gamesave/update" none (some items)

/-- A read request of the allowed client. -/
def getFor (path : String) (ids : List String) : Request :=
  { method := Method.GET, path := path, clientId := some "game", queryUserId := some ids,
    authorization := none, bodyUserId := none, progress := none }

/-- List of friends stored for `i`; empty without a document or without the field. -/
def friendsOf (s : Store) (i : ObjectId) : List ObjectId :=
  ((s i).bind User.friends).getD []

/-- A counter of the profile `i`, a missing counter read as 0. -/
def readCounter (field : User → Option Int) (s : Store) (i : ObjectId) : Int :=
  ((s i).bind field).getD 0

/-- The cast filter of one progress element paired with its operation; `none`
when the cast throws. -/
def castOperation (item : Item) : Option (ObjectId × UpdateOne) :=
  (castObjectId item.id).map (fun i => (i, toOperation item))

/-- A game-save request that reaches the bulk write and whose bulk write is
carried out: allowed client, a token that verifies, `progress` an array, every
`id` a castable object id. -/
def acceptedSave (cfg : Config) (req : Request) : Bool :=
  decide (req.method = Method.POST) && decide (req.path = "/users/gamesave/update")
  && clientAllowed cfg req && !noAuthorization req
  && (match req.authorization with
      | some header => (jwtVerify cfg (extractTokenFromHeader header)).isSome
      | none => false)
  && (match req.progress with
      | some items => (castAll (items.map (fun e => e.id))).isSome
      | none => false)

/-- A friend request on the route `path` that reaches the update: allowed
client, a header whose token verifies with subject `sub`, body `user_id` equal
to `userId`. -/
def friendRequest (cfg : Config) (req : Request) (path sub userId : String) : Bool :=
  decide (req.method = Method.POST) && decide (req.path = path)
  && clientAllowed cfg req && !noAuthorization req
  && (match req.authorization with
      | some header => decide (jwtVerify cfg (extractTokenFromHeader header) = some sub)
      | none => false)
  && decide (req.bodyUserId = some userId)

/-- Progress elements of a sequence of requests, in order. -/
def allItems (reqs : List Request) : List Item :=
  reqs.flatMap (fun r => r.progress.getD [])

/-- Progress elements of a sequence of requests whose `id` casts to `p`. -/
def itemsFor (p : ObjectId) (reqs : List Request) : List Item :=
  (allItems reqs).filter (fun e => castObjectId e.id = some p)

/-- The game-save request with the headers and query of `req` and the progress
array `items`. -/
def withProgress (req : Request) (items : List Item) : Request :=
  { req with method := Method.POST, path := "/users/gamesave/update", progress := some items }

/-- Effect of one progress element on the document it names: the update applied
to the stored document, or to the blank document of the upsert. -/
def docStep (d : Option User) (e : Item) : Option User :=
  some (applyUpdate (toOperation e) (d.getD blankUser))

/-! ## Lemmas on the store operations -/

theorem updateById_upsert (s : Store) (i : ObjectId) (f : User → User) :
    updateById s i f true = setDoc s i (f ((s i).getD blankUser)) := by
  unfold updateById
  cases h : s i <;> simp

theorem incField_comm (v : Option Int) (a b : Int) :
    incField (incField v a) b = incField (incField v b) a := by
  cases v <;> simp [incField, add_comm, add_left_comm, add_assoc]

theorem maxField_comm (v : Option Int) (a b : Int) :
    maxField (maxField v a) b = maxField (maxField v b) a := by
  cases v with
  | none =>
    simp only [maxField]
    split_ifs <;> first | rfl | (congr 1; omega)
  | some x =>
    simp only [maxField]
    split_ifs <;> simp only [maxField] <;> split_ifs <;> first | rfl | (congr 1; omega)

theorem applyUpdate_comm (o1 o2 : UpdateOne) (u : User) :
    applyUpdate o2 (applyUpdate o1 u) = applyUpdate o1 (applyUpdate o2 u) := by
  simp only [applyUpdate]
  rw [incField_comm u.totalPlay, incField_comm u.totalKill, incField_comm u.exp,
    maxField_comm u.maxKill]

theorem applyOne_comm (s : Store) (x y : ObjectId × UpdateOne)
    (hx : x.2.upsert = true) (hy : y.2.upsert = true) :
    applyOne (applyOne s x) y = applyOne (applyOne s y) x := by
  obtain ⟨i, o1⟩ := x
  obtain ⟨j, o2⟩ := y
  simp only at hx hy
  simp only [applyOne, hx, hy, updateById_upsert]
  funext k
  by_cases hij : i = j
  · subst hij
    simp only [setDoc, if_true]
    split_ifs
    · simp [applyUpdate_comm]
    · rfl
  · have hji : ¬ j = i := fun h => hij h.symm
    simp only [setDoc, hij, hji, if_false]
    by_cases hkj : k = j
    · subst hkj
      simp [hji]
    · simp [hkj]

theorem castAll_eq_some_iff (vs : List String) :
    (castAll vs).isSome = true ↔ ∀ v ∈ vs, (castObjectId v).isSome = true := by
  induction vs with
  | nil => simp [castAll]
  | cons v vs ih =>
    simp only [castAll, List.mem_cons, forall_eq_or_imp]
    rw [← ih]
    cases castObjectId v <;> cases castAll vs <;> simp

theorem castAll_zip (items : List Item) (ids : List ObjectId)
    (h : castAll (items.map (fun e => e.id)) = some ids) :
    ids.zip (items.map toOperation) = items.filterMap castOperation := by
  induction items generalizing ids with
  | nil =>
    simp [castAll] at h
    subst h
    rfl
  | cons e es ih =>
    simp only [List.map_cons, castAll] at h
    cases hc : castObjectId e.id with
    | none => simp [hc] at h
    | some i =>
      cases ha : castAll (es.map (fun e => e.id)) with
      | none => simp [hc, ha] at h
      | some is =>
        simp only [hc, ha, Option.some.injEq] at h
        subst h
        simp [List.filterMap_cons, castOperation, hc, ih is ha]

theorem castOperation_upsert (items : List Item) (x : ObjectId × UpdateOne)
    (hx : x ∈ items.filterMap castOperation) : x.2.upsert = true := by
  rw [List.mem_filterMap] at hx
  obtain ⟨e, _, he⟩ := hx
  unfold castOperation at he
  cases hc : castObjectId e.id with
  | none => simp [hc] at he
  | some i =>
    rw [hc] at he
    have hx2 : (i, toOperation e) = x := Option.some.inj he
    rw [← hx2]
    rfl

/-- The bulk write in terms of the operations whose filter casts. -/
theorem bulkWrite_eq (s : Store) (items : List Item) :
    bulkWrite s (items.map toOperation) =
      if (castAll (items.map (fun e => e.id))).isSome then
        some ((items.filterMap castOperation).foldl applyOne s)
      else none := by
  unfold bulkWrite
  have hmap : (items.map toOperation).map (fun op => op.filterId)
      = items.map (fun e => e.id) := by
    simp [List.map_map, Function.comp_def, toOperation]
  rw [hmap]
  cases h : castAll (items.map (fun e => e.id)) with
  | none => simp
  | some ids => simp [castAll_zip items ids h]

/-! ## Lemmas on the routes -/

theorem app_gamesave (cfg : Config) (req : Request) (s : Store)
    (hm : req.method = Method.POST) (hp : req.path = "/users/gamesave/update") :
    app cfg req s =
      match accessGate cfg req with
      | some r => (r, s)
      | none => gamesaveUpdate cfg req s := by
  unfold app
  simp [hm, hp]

theorem app_addfriend (cfg : Config) (req : Request) (s : Store)
    (hm : req.method = Method.POST) (hp : req.path = "/users/addfriend") :
    app cfg req s =
      match accessGate cfg req with
      | some r => (r, s)
      | none => addfriend cfg req s := by
  unfold app
  simp [hm, hp]

theorem app_removefriend (cfg : Config) (req : Request) (s : Store)
    (hm : req.method = Method.POST) (hp : req.path = "/users/removefriend") :
    app cfg req s =
      match accessGate cfg req with
      | some r => (r, s)
      | none => removefriend cfg req s := by
  unfold app
  simp [hm, hp]

theorem gamesaveUpdate_perm (cfg : Config) (req : Request) (s : Store) (b1 b2 : List Item)
    (h : b1.Perm b2) :
    gamesaveUpdate cfg { req with progress := some b1 } s
      = gamesaveUpdate cfg { req with progress := some b2 } s := by
  have hcast : (castAll (b1.map (fun e => e.id))).isSome
      = (castAll (b2.map (fun e => e.id))).isSome := by
    rw [Bool.eq_iff_iff, castAll_eq_some_iff, castAll_eq_some_iff]
    simp only [List.mem_map, forall_exists_index, and_imp, forall_apply_eq_imp_iff₂]
    constructor
    · intro hall e he
      exact hall e (h.mem_iff.mpr he)
    · intro hall e he
      exact hall e (h.mem_iff.mp he)
  have hfold : (b1.filterMap castOperation).foldl applyOne s
      = (b2.filterMap castOperation).foldl applyOne s :=
    (h.filterMap castOperation).foldl_eq'
      (fun x hx y hy z =>
        applyOne_comm z x y (castOperation_upsert b1 x hx) (castOperation_upsert b1 y hy)) s
  unfold gamesaveUpdate
  simp only
  cases req.authorization with
  | none => rfl
  | some header =>
    simp only
    cases jwtVerify cfg (extractTokenFromHeader header) with
    | none => rfl
    | some sub =>
      simp only
      rw [bulkWrite_eq, bulkWrite_eq, hcast, hfold]

theorem app_acceptedSave (cfg : Config) (req : Request) (s : Store)
    (h : acceptedSave cfg req = true) :
    app cfg req s =
      ({ status := 200, body := Body.json [("saved", Val.bool true)] },
       ((req.progress.getD []).filterMap castOperation).foldl applyOne s) := by
  unfold acceptedSave at h
  simp only [Bool.and_eq_true, decide_eq_true_eq, Bool.not_eq_true'] at h
  obtain ⟨⟨⟨⟨⟨hm, hp⟩, hc⟩, hn⟩, ht⟩, hi⟩ := h
  rw [app_gamesave cfg req s hm hp]
  unfold accessGate
  simp only [hc, hn, if_true]
  unfold gamesaveUpdate
  cases hpr : req.progress with
  | none => simp [hpr] at hi
  | some items =>
    cases ha : req.authorization with
    | none => simp [ha] at ht
    | some header =>
      simp only [hpr, ha] at hi ht
      cases hv : jwtVerify cfg (extractTokenFromHeader header) with
      | none => simp [hv] at ht
      | some sub =>
        simp only [Bool.false_eq_true, if_false]
        rw [bulkWrite_eq, hi]
        simp [hv]

/-- Store left by a game-save request: untouched or the fold of its operations. -/
theorem gamesave_store_cases (cfg : Config) (req : Request) (s : Store) (items : List Item)
    (hm : req.method = Method.POST) (hp : req.path = "/users/gamesave/update")
    (hpr : req.progress = some items) :
    (app cfg req s).2 = s
      ∨ (app cfg req s).2 = (items.filterMap castOperation).foldl applyOne s := by
  rw [app_gamesave cfg req s hm hp]
  cases accessGate cfg req with
  | some r => exact Or.inl rfl
  | none =>
    unfold gamesaveUpdate
    simp only [hpr]
    cases req.authorization with
    | none => exact Or.inl rfl
    | some header =>
      simp only
      cases jwtVerify cfg (extractTokenFromHeader header) with
      | none => exact Or.inl rfl
      | some sub =>
        simp only
        rw [bulkWrite_eq]
        cases (castAll (items.map (fun e => e.id))).isSome with
        | false => exact Or.inl rfl
        | true => exact Or.inr rfl

theorem applyOne_at (s : Store) (i p : ObjectId) (e : Item) :
    applyOne s (i, toOperation e) p = if p = i then docStep (s p) e else s p := by
  simp only [applyOne, toOperation, updateById_upsert, setDoc, docStep]
  split_ifs with h
  · subst h
    rfl
  · rfl

theorem fold_items_at (items : List Item) (s : Store) (p : ObjectId) :
    ((items.filterMap castOperation).foldl applyOne s) p
      = (items.filter (fun e => castObjectId e.id = some p)).foldl docStep (s p) := by
  induction items generalizing s with
  | nil => rfl
  | cons e es ih =>
    cases hc : castObjectId e.id with
    | none =>
      have h1 : castOperation e = none := by simp [castOperation, hc]
      rw [List.filterMap_cons_none h1, List.filter_cons]
      simp only [hc, reduceCtorEq, decide_False, Bool.false_eq_true, if_false]
      exact ih s
    | some i =>
      have h1 : castOperation e = some (i, toOperation e) := by simp [castOperation, hc]
      rw [List.filterMap_cons_some h1, List.foldl_cons, ih, applyOne_at, List.filter_cons]
      by_cases hip : p = i
      · subst hip
        simp [hc]
      · have hne : ¬ i = p := fun h => hip h.symm
        simp [hc, hip, hne]

theorem runAll_accepted (cfg : Config) (reqs : List Request) (s : Store)
    (h : ∀ r ∈ reqs, acceptedSave cfg r = true) :
    runAll cfg reqs s = ((allItems reqs).filterMap castOperation).foldl applyOne s := by
  induction reqs generalizing s with
  | nil => rfl
  | cons r rs ih =>
    have hr := h r (List.mem_cons_self r rs)
    have hrs : ∀ x ∈ rs, acceptedSave cfg x = true :=
      fun x hx => h x (List.mem_cons_of_mem r hx)
    have hstep : runAll cfg (r :: rs) s = runAll cfg rs (app cfg r s).2 := rfl
    rw [hstep, ih _ hrs, app_acceptedSave cfg r s hr]
    simp only [allItems, List.flatMap_cons, List.filterMap_append, List.foldl_append]

theorem foldl_docStep_none (es : List Item) :
    (es = [] → es.foldl docStep none = none) ∧
    (es ≠ [] → ∃ u, es.foldl docStep none = some u
      ∧ u.totalPlay = some (es.length : Int)
      ∧ u.exp = some (es.map (fun e => e.exp)).sum
      ∧ u.totalKill = some (es.map (fun e => e.totalKill)).sum
      ∧ ∃ m, u.maxKill = some m ∧ m ∈ es.map (fun e => e.maxKill)
          ∧ ∀ x ∈ es.map (fun e => e.maxKill), x ≤ m) := by
  induction es using List.reverseRecOn with
  | nil => exact ⟨fun _ => rfl, fun h => absurd rfl h⟩
  | append_singleton l a ih =>
    refine ⟨fun h => absurd h (by simp), fun _ => ?_⟩
    rw [List.foldl_append, List.foldl_cons, List.foldl_nil]
    by_cases hl : l = []
    · subst hl
      refine ⟨_, rfl, ?_, ?_, ?_, a.maxKill, ?_, ?_, ?_⟩
      · simp [applyUpdate, toOperation, blankUser, incField]
      · simp [applyUpdate, toOperation, blankUser, incField]
      · simp [applyUpdate, toOperation, blankUser, incField]
      · simp [applyUpdate, toOperation, blankUser, maxField]
      · simp
      · simp
    · obtain ⟨u, hu, hplay, hexp, hkill, m, hmax, hmem, hle⟩ := ih.2 hl
      rw [hu]
      refine ⟨_, rfl, ?_, ?_, ?_, ?_⟩
      · simp [docStep, applyUpdate, toOperation, hplay, incField]
      · simp [docStep, applyUpdate, toOperation, hexp, incField]
      · simp [docStep, applyUpdate, toOperation, hkill, incField]
      · by_cases hlt : m < a.maxKill
        · refine ⟨a.maxKill, ?_, ?_, ?_⟩
          · simp [docStep, applyUpdate, toOperation, hmax, maxField, hlt]
          · simp
          · intro x hx
            simp only [List.map_append, List.map_cons, List.map_nil, List.mem_append,
              List.mem_singleton] at hx
            rcases hx with hx | hx
            · exact le_trans (hle x hx) (le_of_lt hlt)
            · exact le_of_eq hx
        · refine ⟨m, ?_, ?_, ?_⟩
          · simp [docStep, applyUpdate, toOperation, hmax, maxField, hlt]
          · simp only [List.map_append, List.mem_append]
            exact Or.inl hmem
          · intro x hx
            simp only [List.map_append, List.map_cons, List.map_nil, List.mem_append,
              List.mem_singleton] at hx
            rcases hx with hx | hx
            · exact hle x hx
            · rw [hx]
              exact not_lt.mp hlt

theorem incField_mono (v : Option Int) (a : Int) (h : 0 ≤ a) :
    v.getD 0 ≤ (incField v a).getD 0 := by
  cases v <;> simp [incField, h]

theorem maxField_mono (v : Option Int) (c : Int) (h : 0 ≤ c) :
    v.getD 0 ≤ (maxField v c).getD 0 := by
  cases v with
  | none => simp [maxField, h]
  | some x =>
    simp only [maxField]
    split_ifs with hlt
    · exact le_of_lt hlt
    · exact le_refl _

theorem docStep_mono (d : Option User) (e : Item)
    (h : 0 ≤ e.totalKill ∧ 0 ≤ e.exp ∧ 0 ≤ e.maxKill) :
    (d.bind User.exp).getD 0 ≤ ((docStep d e).bind User.exp).getD 0
    ∧ (d.bind User.totalKill).getD 0 ≤ ((docStep d e).bind User.totalKill).getD 0
    ∧ (d.bind User.maxKill).getD 0 ≤ ((docStep d e).bind User.maxKill).getD 0
    ∧ (d.bind User.totalPlay).getD 0 ≤ ((docStep d e).bind User.totalPlay).getD 0 := by
  cases d with
  | none =>
    simp only [docStep, applyUpdate, toOperation, Option.getD_none, Option.bind_some,
      Option.bind_none, blankUser]
    exact ⟨incField_mono none _ h.2.1, incField_mono none _ h.1, maxField_mono none _ h.2.2,
      incField_mono none 1 (by decide)⟩
  | some u =>
    simp only [docStep, applyUpdate, toOperation, Option.getD_some, Option.bind_some]
    exact ⟨incField_mono _ _ h.2.1, incField_mono _ _ h.1, maxField_mono _ _ h.2.2,
      incField_mono _ 1 (by decide)⟩

theorem foldl_docStep_mono (es : List Item) (d : Option User)
    (h : ∀ e ∈ es, 0 ≤ e.totalKill ∧ 0 ≤ e.exp ∧ 0 ≤ e.maxKill) :
    (d.bind User.exp).getD 0 ≤ ((es.foldl docStep d).bind User.exp).getD 0
    ∧ (d.bind User.totalKill).getD 0 ≤ ((es.foldl docStep d).bind User.totalKill).getD 0
    ∧ (d.bind User.maxKill).getD 0 ≤ ((es.foldl docStep d).bind User.maxKill).getD 0
    ∧ (d.bind User.totalPlay).getD 0 ≤ ((es.foldl docStep d).bind User.totalPlay).getD 0 := by
  induction es generalizing d with
  | nil => exact ⟨le_refl _, le_refl _, le_refl _, le_refl _⟩
  | cons e es ih =>
    have h1 := docStep_mono d e (h e (List.mem_cons_self e es))
    have h2 := ih (docStep d e) (fun x hx => h x (List.mem_cons_of_mem e hx))
    rw [List.foldl_cons]
    exact ⟨le_trans h1.1 h2.1, le_trans h1.2.1 h2.2.1, le_trans h1.2.2.1 h2.2.2.1,
      le_trans h1.2.2.2 h2.2.2.2⟩

theorem friendRequest_gate (cfg : Config) (req : Request) (path sub userId : String)
    (h : friendRequest cfg req path sub userId = true) :
    req.method = Method.POST ∧ req.path = path ∧ accessGate cfg req = none
    ∧ req.bodyUserId = some userId
    ∧ ∃ header, req.authorization = some header
        ∧ jwtVerify cfg (extractTokenFromHeader header) = some sub := by
  unfold friendRequest at h
  simp only [Bool.and_eq_true, decide_eq_true_eq, Bool.not_eq_true'] at h
  obtain ⟨⟨⟨⟨⟨hm, hp⟩, hc⟩, hn⟩, ht⟩, hb⟩ := h
  refine ⟨hm, hp, by simp [accessGate, hc, hn], hb, ?_⟩
  cases ha : req.authorization with
  | none => simp [ha] at ht
  | some header =>
    simp only [ha, decide_eq_true_eq] at ht
    exact ⟨header, rfl, ht⟩

theorem app_addfriend_accepted (cfg : Config) (req : Request) (s : Store)
    (sub userId : String) (a b : ObjectId)
    (hreq : friendRequest cfg req "/users/addfriend" sub userId = true)
    (hne : userId ≠ sub) (ha : castObjectId sub = some a) (hb : castObjectId userId = some b) :
    app cfg req s =
      ({ status := 201, body := Body.empty },
       updateById s a (fun u => { u with friends := addToSet u.friends b }) true) := by
  obtain ⟨hm, hp, hg, hbody, header, hauth, htok⟩ := friendRequest_gate cfg req _ sub userId hreq
  rw [app_addfriend cfg req s hm hp, hg]
  have hne2 : ¬ sub = userId := fun h => hne h.symm
  simp [addfriend, hbody, hauth, htok, hne2, ha, hb]

theorem app_removefriend_accepted (cfg : Config) (req : Request) (s : Store)
    (sub userId : String) (a b : ObjectId)
    (hreq : friendRequest cfg req "/users/removefriend" sub userId = true)
    (hne : userId ≠ sub) (ha : castObjectId sub = some a) (hb : castObjectId userId = some b) :
    app cfg req s =
      ({ status := 200, body := Body.empty },
       updateById s a (fun u => { u with friends := pull u.friends b }) false) := by
  obtain ⟨hm, hp, hg, hbody, header, hauth, htok⟩ := friendRequest_gate cfg req _ sub userId hreq
  rw [app_removefriend cfg req s hm hp, hg]
  have hne2 : ¬ sub = userId := fun h => hne h.symm
  simp [removefriend, hbody, hauth, htok, hne2, ha, hb]

theorem addToSet_idem (l : Option (List ObjectId)) (b : ObjectId) :
    addToSet (addToSet l b) b = addToSet l b := by
  cases l with
  | none => simp [addToSet]
  | some l =>
    by_cases h : b ∈ l
    · simp [addToSet, h]
    · simp [addToSet, h]

theorem addToSet_count (l : Option (List ObjectId)) (b : ObjectId) (h : (l.getD []).Nodup) :
    ((addToSet l b).getD []).count b = 1 := by
  cases l with
  | none => simp [addToSet]
  | some l =>
    by_cases hb : b ∈ l
    · simp only [addToSet, hb, if_true, Option.getD_some]
      exact List.count_eq_one_of_mem h hb
    · simp only [addToSet, hb, if_false, Option.getD_some, List.count_append]
      rw [List.count_eq_zero_of_not_mem hb]
      simp

theorem setDoc_setDoc (s : Store) (i : ObjectId) (u v : User) :
    setDoc (setDoc s i u) i v = setDoc s i v := by
  funext j
  simp only [setDoc]
  split_ifs <;> rfl

theorem setDoc_same (s : Store) (i : ObjectId) (u : User) (h : s i = some u) :
    setDoc s i u = s := by
  funext j
  simp only [setDoc]
  split_ifs with hj
  · rw [hj, h]
  · rfl

theorem pull_absent (l : Option (List ObjectId)) (b : ObjectId) (h : b ∉ l.getD []) :
    pull l b = l := by
  cases l with
  | none => rfl
  | some l =>
    simp only [Option.getD_some] at h
    simp only [pull, Option.some.injEq, List.filter_eq_self, decide_eq_true_eq]
    intro y hy hyb
    exact h (hyb ▸ hy)

theorem app_info (cfg : Config) (req : Request) (s : Store)
    (hm : req.method = Method.GET) (hp : req.path = "/users/info") :
    app cfg req s = (usersInfo cfg req s, s) := by
  unfold app
  simp [hm, hp]

theorem mem_findIn (s : Store) (ids : List ObjectId) (d : ObjectId × User)
    (h : d ∈ findIn s ids) : s d.1 = some d.2 := by
  unfold findIn at h
  rw [List.mem_filterMap] at h
  obtain ⟨i, _, hi⟩ := h
  cases hs : s i with
  | none => simp [hs] at hi
  | some u =>
    rw [hs] at hi
    have hd : (i, u) = d := Option.some.inj hi
    rw [← hd]
    exact hs

/-- Every object of an answer of `GET /users/info` is the clone of the
projection of a stored document. -/
theorem info_objects (cfg : Config) (req : Request) (s : Store) (o : Obj)
    (hm : req.method = Method.GET) (hp : req.path = "/users/info")
    (ho : o ∈ responseObjects (app cfg req s).1) :
    ∃ i u, s i = some u ∧ o = cloneItem (projectStage (i, u)) := by
  rw [app_info cfg req s hm hp] at ho
  unfold usersInfo at ho
  simp only at ho
  split_ifs at ho with hv
  · cases hc : castAll (req.queryUserId.getD []) with
    | none => simp [hc, responseObjects] at ho
    | some ids =>
      simp only [hc] at ho
      split_ifs at ho with hlen
      · simp [responseObjects] at ho
      · simp only [responseObjects, List.map_map, List.mem_map, Function.comp_apply] at ho
        obtain ⟨d, hd, rfl⟩ := ho
        exact ⟨d.1, d.2, mem_findIn s ids d hd, rfl⟩
  · simp [responseObjects] at ho

theorem fdiv_200_eq_floor (e : Int) : Int.fdiv e 200 = Int.floor ((e : ℚ) / 200) := by
  rw [Int.fdiv_eq_ediv e (by decide : (0 : Int) ≤ 200)]
  have h := Rat.floor_intCast_div_natCast e 200
  simpa using h.symm

theorem filter_included (name : String) (v : Option Val) (h : name ≠ "_id") :
    (included name v).filter (fun kv => kv.1 ≠ "_id") = included name v := by
  cases v with
  | none => rfl
  | some x => simp [included, h]

theorem cloneItem_projectStage (d : ObjectId × User) :
    cloneItem (projectStage d) =
      [("id", Val.oid d.1),
       ("level", match d.2.exp with
                 | some e => Val.num (Int.fdiv e 200)
                 | none => Val.null)]
      ++ included "totalKill" (d.2.totalKill.map Val.num)
      ++ included "maxKill" (d.2.maxKill.map Val.num)
      ++ included "exp" (d.2.exp.map Val.num)
      ++ included "totalPlay" (d.2.totalPlay.map Val.num)
      ++ included "friends" (d.2.friends.map Val.oids) := by
  have hlook : (projectStage d).lookup "_id" = some (Val.oid d.1) := by
    simp [projectStage, List.lookup]
  unfold cloneItem
  rw [hlook]
  simp only [projectStage, List.filter_append,
    filter_included "totalKill" _ (by decide), filter_included "maxKill" _ (by decide),
    filter_included "exp" _ (by decide), filter_included "totalPlay" _ (by decide),
    filter_included "friends" _ (by decide)]
  simp [List.filter]

theorem mem_fieldNames_included (k name : String) (v : Option Val) :
    k ∈ fieldNames (included name v) ↔ (k = name ∧ v ≠ none) := by
  cases v with
  | none => simp [included, fieldNames]
  | some x => simp [included, fieldNames]

theorem fieldNames_append (o1 o2 : Obj) :
    fieldNames (o1 ++ o2) = fieldNames o1 ++ fieldNames o2 := by
  simp [fieldNames]

/-! ## The friends of a profile form a set in every reachable store -/

theorem addfriend_store (cfg : Config) (req : Request) (s : Store) :
    (addfriend cfg req s).2 = s
    ∨ ∃ a b, (addfriend cfg req s).2
        = updateById s a (fun u => { u with friends := addToSet u.friends b }) true := by
  unfold addfriend
  split
  · exact Or.inl rfl
  · exact Or.inl rfl
  · split
    · exact Or.inl rfl
    · split_ifs
      · exact Or.inl rfl
      · split
        · exact Or.inl rfl
        · split
          · exact Or.inl rfl
          · exact Or.inr ⟨_, _, rfl⟩

theorem removefriend_store (cfg : Config) (req : Request) (s : Store) :
    (removefriend cfg req s).2 = s
    ∨ ∃ a b, (removefriend cfg req s).2
        = updateById s a (fun u => { u with friends := pull u.friends b }) false := by
  unfold removefriend
  split
  · exact Or.inl rfl
  · exact Or.inl rfl
  · split
    · exact Or.inl rfl
    · split_ifs
      · exact Or.inl rfl
      · split
        · exact Or.inl rfl
        · split
          · exact Or.inl rfl
          · exact Or.inr ⟨_, _, rfl⟩

theorem gamesaveUpdate_store (cfg : Config) (req : Request) (s : Store) :
    (gamesaveUpdate cfg req s).2 = s
    ∨ ∃ items : List Item,
        (gamesaveUpdate cfg req s).2 = (items.filterMap castOperation).foldl applyOne s := by
  unfold gamesaveUpdate
  split
  · exact Or.inl rfl
  · exact Or.inl rfl
  · rename_i progress header _ _
    split
    · exact Or.inl rfl
    · rw [bulkWrite_eq]
      cases (castAll (progress.map (fun e => e.id))).isSome with
      | false => exact Or.inl rfl
      | true => exact Or.inr ⟨progress, rfl⟩

theorem friendsOf_updateById (s : Store) (a i : ObjectId) (f : User → User) (upsert : Bool)
    (hf : ∀ u : User, (u.friends.getD []).Nodup → ((f u).friends.getD []).Nodup)
    (h : ∀ j, (friendsOf s j).Nodup) :
    (friendsOf (updateById s a f upsert) i).Nodup := by
  have hblank : ((f blankUser).friends.getD []).Nodup := hf blankUser (by simp [blankUser])
  unfold updateById
  cases hsa : s a with
  | none =>
    cases upsert with
    | false => exact h i
    | true =>
      simp only [if_true, friendsOf, setDoc]
      split_ifs with hi
      · simpa using hblank
      · exact h i
  | some u =>
    simp only [friendsOf, setDoc]
    split_ifs with hi
    · have hu := h a
      simp only [friendsOf, hsa, Option.bind_some] at hu
      simpa using hf u hu
    · exact h i

theorem addToSet_nodup (l : Option (List ObjectId)) (b : ObjectId) (h : (l.getD []).Nodup) :
    ((addToSet l b).getD []).Nodup := by
  cases l with
  | none => simp [addToSet]
  | some l =>
    simp only [Option.getD_some] at h
    by_cases hb : b ∈ l
    · simpa [addToSet, hb] using h
    · simp only [addToSet, hb, if_false, Option.getD_some]
      exact List.Nodup.append h (List.nodup_singleton b) (by simpa using hb)

theorem pull_nodup (l : Option (List ObjectId)) (b : ObjectId) (h : (l.getD []).Nodup) :
    ((pull l b).getD []).Nodup := by
  cases l with
  | none => simp [pull]
  | some l =>
    simp only [Option.getD_some] at h
    simp only [pull, Option.getD_some]
    exact h.filter _

theorem fold_applyOne_nodup (ops : List (ObjectId × UpdateOne)) (s : Store)
    (h : ∀ j, (friendsOf s j).Nodup) :
    ∀ i, (friendsOf (ops.foldl applyOne s) i).Nodup := by
  induction ops generalizing s with
  | nil => exact h
  | cons o os ih =>
    rw [List.foldl_cons]
    apply ih
    intro j
    exact friendsOf_updateById s o.1 j (applyUpdate o.2) o.2.upsert (fun u hu => hu) h

theorem addfriend_nodup (cfg : Config) (req : Request) (s : Store)
    (h : ∀ j, (friendsOf s j).Nodup) (i : ObjectId) :
    (friendsOf (addfriend cfg req s).2 i).Nodup := by
  rcases addfriend_store cfg req s with h1 | ⟨a, b, h1⟩
  · rw [h1]
    exact h i
  · rw [h1]
    exact friendsOf_updateById s a i _ true (fun u hu => addToSet_nodup u.friends b hu) h

theorem removefriend_nodup (cfg : Config) (req : Request) (s : Store)
    (h : ∀ j, (friendsOf s j).Nodup) (i : ObjectId) :
    (friendsOf (removefriend cfg req s).2 i).Nodup := by
  rcases removefriend_store cfg req s with h1 | ⟨a, b, h1⟩
  · rw [h1]
    exact h i
  · rw [h1]
    exact friendsOf_updateById s a i _ false (fun u hu => pull_nodup u.friends b hu) h

theorem gamesaveUpdate_nodup (cfg : Config) (req : Request) (s : Store)
    (h : ∀ j, (friendsOf s j).Nodup) (i : ObjectId) :
    (friendsOf (gamesaveUpdate cfg req s).2 i).Nodup := by
  rcases gamesaveUpdate_store cfg req s with h1 | ⟨items, h1⟩
  · rw [h1]
    exact h i
  · rw [h1]
    exact fold_applyOne_nodup _ s h i

theorem app_friends_nodup (cfg : Config) (req : Request) (s : Store)
    (h : ∀ j, (friendsOf s j).Nodup) :
    ∀ i, (friendsOf (app cfg req s).2 i).Nodup := by
  intro i
  unfold app
  split_ifs <;> (try exact h i) <;> cases accessGate cfg req <;> simp only <;>
    first
    | exact h i
    | exact addfriend_nodup cfg req s h i
    | exact removefriend_nodup cfg req s h i
    | exact gamesaveUpdate_nodup cfg req s h i

/-- In every store reached from the empty store the friends of each profile are
free of duplicates. -/
theorem reachable_friends_nodup (cfg : Config) (reqs : List Request) :
    ∀ i, (friendsOf (runAll cfg reqs emptyStore) i).Nodup := by
  have hgen : ∀ (rs : List Request) (s : Store), (∀ j, (friendsOf s j).Nodup) →
      ∀ i, (friendsOf (runAll cfg rs s) i).Nodup := by
    intro rs
    induction rs with
    | nil => exact fun s hs => hs
    | cons r rs ih => exact fun s hs => ih (app cfg r s).2 (app_friends_nodup cfg r s hs)
  exact hgen reqs emptyStore (fun j => by simp [friendsOf, emptyStore])

/-! ## Claims -/


/-- C1. Progress merge totals: from a store without profile `p`, after any
sequence of accepted game-save requests, `p` does not exist when no progress
element names it, and otherwise `p.totalPlay` is the number of elements naming
`p`, `p.exp` and `p.totalKill` are the sums of their `exp` and `totalKill`, and
`p.maxKill` is the maximum of their `maxKill`. -/
theorem merge_totals (cfg : Config) (reqs : List Request) (s : Store) (p : ObjectId)
    (hfresh : s p = none) (hacc : ∀ r ∈ reqs, acceptedSave cfg r = true) :
    (itemsFor p reqs = [] → runAll cfg reqs s p = none) ∧
    (itemsFor p reqs ≠ [] → ∃ u, runAll cfg reqs s p = some u
      ∧ u.totalPlay = some ((itemsFor p reqs).length : Int)
      ∧ u.exp = some ((itemsFor p reqs).map (fun e => e.exp)).sum
      ∧ u.totalKill = some ((itemsFor p reqs).map (fun e => e.totalKill)).sum
      ∧ ∃ m, u.maxKill = some m ∧ m ∈ (itemsFor p reqs).map (fun e => e.maxKill)
          ∧ ∀ x ∈ (itemsFor p reqs).map (fun e => e.maxKill), x ≤ m) := by
  have hrun : runAll cfg reqs s p = (itemsFor p reqs).foldl docStep none := by
    rw [runAll_accepted cfg reqs s hacc, fold_items_at, hfresh]
    rfl
  rw [hrun]
  exact ⟨(foldl_docStep_none _).1, (foldl_docStep_none _).2⟩

/-- The scenario of C1: the batch `[{p1,3,50,10},{p1,2,10,5}]` on a fresh
profile leaves `totalPlay = 2`, `totalKill = 5`, `exp = 60`, `maxKill = 10`. -/
theorem merge_totals_witness :
    (runAll demoConfig
        [postAs "/users/gamesave/update" none
          (some [⟨"aaaaaaaaaaaaaaaaaaaaaaaa", 3, 50, 10⟩, ⟨"aaaaaaaaaaaaaaaaaaaaaaaa", 2, 10, 5⟩])]
        emptyStore idA
      = some { level := none, exp := some 60, totalKill := some 5, maxKill := some 10,
               totalPlay := some 2, friends := none }) ∧
    ∃ u, runAll demoConfig
        [postAs "/users/gamesave/update" none
          (some [⟨"aaaaaaaaaaaaaaaaaaaaaaaa", 3, 50, 10⟩, ⟨"aaaaaaaaaaaaaaaaaaaaaaaa", 2, 10, 5⟩])]
        emptyStore idA = some u
      ∧ u.totalPlay = some 2 ∧ u.exp = some 60 ∧ u.totalKill = some 5
      ∧ ∃ m, u.maxKill = some m ∧ m ∈ [10, 5] ∧ ∀ x ∈ [10, 5], x ≤ m :=
  ⟨by decide,
   (merge_totals demoConfig
      [postAs "/users/gamesave/update" none
        (some [⟨"aaaaaaaaaaaaaaaaaaaaaaaa", 3, 50, 10⟩, ⟨"aaaaaaaaaaaaaaaaaaaaaaaa", 2, 10, 5⟩])]
      emptyStore idA rfl (by decide)).2 (by decide)⟩

/-- C5. Batch order independence: a game-save request answers the same and
leaves the same store for every permutation of its `progress` array. -/
theorem gamesave_order_independent (cfg : Config) (req : Request) (s : Store)
    (b1 b2 : List Item) (h : b1.Perm b2) :
    app cfg (withProgress req b1) s = app cfg (withProgress req b2) s := by
  rw [app_gamesave _ _ _ rfl rfl, app_gamesave _ _ _ rfl rfl]
  have hgate : accessGate cfg (withProgress req b1) = accessGate cfg (withProgress req b2) :=
    rfl
  rw [hgate]
  cases accessGate cfg (withProgress req b2) with
  | some r => rfl
  | none => exact gamesaveUpdate_perm cfg _ s b1 b2 h

/-- Instance of C5 on a batch naming one profile twice and another once. -/
theorem gamesave_order_independent_witness :
    List.Perm
      [(⟨"aaaaaaaaaaaaaaaaaaaaaaaa", 3, 50, 10⟩ : Item), ⟨"bbbbbbbbbbbbbbbbbbbbbbbb", 1, 7, 4⟩,
       ⟨"aaaaaaaaaaaaaaaaaaaaaaaa", 2, 10, 5⟩]
      [⟨"aaaaaaaaaaaaaaaaaaaaaaaa", 2, 10, 5⟩, ⟨"aaaaaaaaaaaaaaaaaaaaaaaa", 3, 50, 10⟩,
       ⟨"bbbbbbbbbbbbbbbbbbbbbbbb", 1, 7, 4⟩]
    ∧ app demoConfig (withProgress (saveAs [])
        [⟨"aaaaaaaaaaaaaaaaaaaaaaaa", 3, 50, 10⟩, ⟨"bbbbbbbbbbbbbbbbbbbbbbbb", 1, 7, 4⟩,
         ⟨"aaaaaaaaaaaaaaaaaaaaaaaa", 2, 10, 5⟩]) emptyStore
      = app demoConfig (withProgress (saveAs [])
        [⟨"aaaaaaaaaaaaaaaaaaaaaaaa", 2, 10, 5⟩, ⟨"aaaaaaaaaaaaaaaaaaaaaaaa", 3, 50, 10⟩,
         ⟨"bbbbbbbbbbbbbbbbbbbbbbbb", 1, 7, 4⟩]) emptyStore :=
  ⟨by decide, gamesave_order_independent demoConfig (saveAs []) emptyStore _ _ (by decide)⟩

/-- C2, as stated, fails: an accepted batch with a negative `exp` lowers the
stored `exp` of an existing profile from 10 to 5. -/
theorem counters_monotone_counterexample :
    (app demoConfig (saveAs [⟨"aaaaaaaaaaaaaaaaaaaaaaaa", 0, -5, 0⟩])
        (app demoConfig (saveAs [⟨"aaaaaaaaaaaaaaaaaaaaaaaa", 2, 10, 3⟩]) emptyStore).2).1.status
      = 200
    ∧ readCounter User.exp
        (app demoConfig (saveAs [⟨"aaaaaaaaaaaaaaaaaaaaaaaa", 2, 10, 3⟩]) emptyStore).2 idA = 10
    ∧ readCounter User.exp
        (app demoConfig (saveAs [⟨"aaaaaaaaaaaaaaaaaaaaaaaa", 0, -5, 0⟩])
          (app demoConfig (saveAs [⟨"aaaaaaaaaaaaaaaaaaaaaaaa", 2, 10, 3⟩]) emptyStore).2).2 idA
        = 5
    ∧ ¬ (readCounter User.exp
          (app demoConfig (saveAs [⟨"aaaaaaaaaaaaaaaaaaaaaaaa", 2, 10, 3⟩]) emptyStore).2 idA
        ≤ readCounter User.exp
          (app demoConfig (saveAs [⟨"aaaaaaaaaaaaaaaaaaaaaaaa", 0, -5, 0⟩])
            (app demoConfig (saveAs [⟨"aaaaaaaaaaaaaaaaaaaaaaaa", 2, 10, 3⟩]) emptyStore).2).2
          idA) := by
  decide

/-- C2, amended: a game-save request whose progress elements all carry
non-negative `totalKill`, `exp` and `maxKill` leaves each of the counters `exp`,
`totalKill`, `maxKill` and `totalPlay` of every profile at least as large as it
was, a missing counter read as 0. -/
theorem counters_monotone (cfg : Config) (req : Request) (s : Store) (items : List Item)
    (hnn : ∀ e ∈ items, 0 ≤ e.totalKill ∧ 0 ≤ e.exp ∧ 0 ≤ e.maxKill) (p : ObjectId) :
    readCounter User.exp s p
        ≤ readCounter User.exp (app cfg (withProgress req items) s).2 p
    ∧ readCounter User.totalKill s p
        ≤ readCounter User.totalKill (app cfg (withProgress req items) s).2 p
    ∧ readCounter User.maxKill s p
        ≤ readCounter User.maxKill (app cfg (withProgress req items) s).2 p
    ∧ readCounter User.totalPlay s p
        ≤ readCounter User.totalPlay (app cfg (withProgress req items) s).2 p := by
  rcases gamesave_store_cases cfg (withProgress req items) s items rfl rfl rfl with h | h
  · rw [h]
    exact ⟨le_refl _, le_refl _, le_refl _, le_refl _⟩
  · rw [h]
    unfold readCounter
    rw [fold_items_at]
    exact foldl_docStep_mono _ (s p)
      (fun e he => hnn e (List.mem_of_mem_filter he))

/-- Instance of amended C2: after `{exp: 10}` a batch with `exp: 5` leaves 15. -/
theorem counters_monotone_witness :
    (∀ e ∈ [(⟨"aaaaaaaaaaaaaaaaaaaaaaaa", 1, 5, 2⟩ : Item)],
        0 ≤ e.totalKill ∧ 0 ≤ e.exp ∧ 0 ≤ e.maxKill)
    ∧ readCounter User.exp
        (app demoConfig (withProgress (saveAs []) [⟨"aaaaaaaaaaaaaaaaaaaaaaaa", 1, 5, 2⟩])
          (app demoConfig (saveAs [⟨"aaaaaaaaaaaaaaaaaaaaaaaa", 2, 10, 3⟩]) emptyStore).2).2 idA
        = 15
    ∧ readCounter User.exp
          (app demoConfig (saveAs [⟨"aaaaaaaaaaaaaaaaaaaaaaaa", 2, 10, 3⟩]) emptyStore).2 idA
        ≤ readCounter User.exp
          (app demoConfig (withProgress (saveAs []) [⟨"aaaaaaaaaaaaaaaaaaaaaaaa", 1, 5, 2⟩])
            (app demoConfig (saveAs [⟨"aaaaaaaaaaaaaaaaaaaaaaaa", 2, 10, 3⟩]) emptyStore).2).2
          idA :=
  ⟨by decide, by decide,
   (counters_monotone demoConfig (saveAs [])
      (app demoConfig (saveAs [⟨"aaaaaaaaaaaaaaaaaaaaaaaa", 2, 10, 3⟩]) emptyStore).2
      [⟨"aaaaaaaaaaaaaaaaaaaaaaaa", 1, 5, 2⟩] (by decide) idA).1⟩

/-- C3 at its failing input: the subject `aaaaaaaaaaaaaaaaaaaaaaaa` adds
`AAAAAAAAAAAAAAAAAAAAAAAA`, a different string that casts to the same object
id; the request is answered 201 and the profile lists itself as a friend. -/
theorem self_loop_by_case_variant :
    "aaaaaaaaaaaaaaaaaaaaaaaa" ≠ "AAAAAAAAAAAAAAAAAAAAAAAA"
    ∧ castObjectId "aaaaaaaaaaaaaaaaaaaaaaaa" = some idA
    ∧ castObjectId "AAAAAAAAAAAAAAAAAAAAAAAA" = some idA
    ∧ (app demoConfig (postAs "/users/addfriend" (some "AAAAAAAAAAAAAAAAAAAAAAAA") none)
        emptyStore).1.status = 201
    ∧ idA ∈ friendsOf
        (app demoConfig (postAs "/users/addfriend" (some "AAAAAAAAAAAAAAAAAAAAAAAA") none)
          emptyStore).2 idA := by
  decide

/-- C4, as stated, fails: an add-friend request of an allowed client without an
`Authorization` header is answered 403, not 401. -/
theorem missing_credential_counterexample :
    (app demoConfig
        { method := Method.POST, path := "/users/addfriend", clientId := some "game",
          queryUserId := none, authorization := none,
          bodyUserId := some "bbbbbbbbbbbbbbbbbbbbbbbb", progress := none }
        emptyStore).1.status = 403
    ∧ ¬ ((app demoConfig
        { method := Method.POST, path := "/users/addfriend", clientId := some "game",
          queryUserId := none, authorization := none,
          bodyUserId := some "bbbbbbbbbbbbbbbbbbbbbbbb", progress := none }
        emptyStore).1.status = 401) := by
  decide

/-- C4, amended: a request to one of the three write routes whose `client_id` is
on the allow-list and which carries no `Authorization` header is answered 403
with the body `{ error: 'No credentials sent!' }`, and the store is unchanged. -/
theorem missing_credential_forbidden (cfg : Config) (req : Request) (s : Store)
    (hm : req.method = Method.POST)
    (hp : req.path = "/users/addfriend" ∨ req.path = "/users/removefriend"
      ∨ req.path = "/users/gamesave/update")
    (hc : clientAllowed cfg req = true) (ha : req.authorization = none) :
    (app cfg req s).1
        = { status := 403, body := Body.json [("error", Val.str "No credentials sent!")] }
    ∧ (app cfg req s).2 = s := by
  have hgate : accessGate cfg req
      = some { status := 403, body := Body.json [("error", Val.str "No credentials sent!")] } := by
    simp [accessGate, hc, noAuthorization, ha]
  rcases hp with hp | hp | hp
  · rw [app_addfriend cfg req s hm hp, hgate]
    exact ⟨rfl, rfl⟩
  · rw [app_removefriend cfg req s hm hp, hgate]
    exact ⟨rfl, rfl⟩
  · rw [app_gamesave cfg req s hm hp, hgate]
    exact ⟨rfl, rfl⟩

/-- Instance of amended C4 on a game-save request without a header, on a store
that holds a profile. -/
theorem missing_credential_forbidden_witness :
    (app demoConfig
        { method := Method.POST, path := "/users/gamesave/update", clientId := some "game",
          queryUserId := none, authorization := none, bodyUserId := none,
          progress := some [⟨"aaaaaaaaaaaaaaaaaaaaaaaa", 1, 5, 2⟩] }
        (app demoConfig (saveAs [⟨"aaaaaaaaaaaaaaaaaaaaaaaa", 2, 10, 3⟩]) emptyStore).2).1
        = { status := 403, body := Body.json [("error", Val.str "No credentials sent!")] }
    ∧ (app demoConfig
        { method := Method.POST, path := "/users/gamesave/update", clientId := some "game",
          queryUserId := none, authorization := none, bodyUserId := none,
          progress := some [⟨"aaaaaaaaaaaaaaaaaaaaaaaa", 1, 5, 2⟩] }
        (app demoConfig (saveAs [⟨"aaaaaaaaaaaaaaaaaaaaaaaa", 2, 10, 3⟩]) emptyStore).2).2
        = (app demoConfig (saveAs [⟨"aaaaaaaaaaaaaaaaaaaaaaaa", 2, 10, 3⟩]) emptyStore).2 :=
  missing_credential_forbidden demoConfig _ _ rfl (Or.inr (Or.inr rfl)) (by decide) rfl

/-- C8 at its failing input: for an id that names no profile `GET /users/friends`
answers 200 with an empty array, where `GET /users/info` answers 404. -/
theorem friends_of_unknown_id :
    (app demoConfig (getFor "/users/friends" ["aaaaaaaaaaaaaaaaaaaaaaaa"]) emptyStore).1
        = { status := 200, body := Body.jsonList [] }
    ∧ (app demoConfig (getFor "/users/info" ["aaaaaaaaaaaaaaaaaaaaaaaa"]) emptyStore).1.status
        = 404 := by
  decide

/-- C6. Idempotence of add-friend: for every store, a subject `sub` and a
different body value `userId`, both valid object ids, the request is answered
201 both times and the store after the second request equals the store after
the first; when the friends of the subject form a set (as they do in every
reachable store) they contain the target exactly once afterwards. -/
theorem addfriend_idempotent (cfg : Config) (req : Request) (s : Store)
    (sub userId : String) (a b : ObjectId)
    (hreq : friendRequest cfg req "/users/addfriend" sub userId = true)
    (hne : userId ≠ sub) (ha : castObjectId sub = some a) (hb : castObjectId userId = some b) :
    (app cfg req s).1.status = 201
    ∧ (app cfg req (app cfg req s).2).1.status = 201
    ∧ (app cfg req (app cfg req s).2).2 = (app cfg req s).2
    ∧ ((friendsOf s a).Nodup →
        (friendsOf (app cfg req (app cfg req s).2).2 a).count b = 1) := by
  have hstore : ∀ t : Store,
      (updateById (updateById t a (fun u => { u with friends := addToSet u.friends b }) true) a
        (fun u => { u with friends := addToSet u.friends b }) true)
      = updateById t a (fun u => { u with friends := addToSet u.friends b }) true := by
    intro t
    simp only [updateById_upsert, setDoc_setDoc]
    simp [setDoc, addToSet_idem]
  have happ := fun t => app_addfriend_accepted cfg req t sub userId a b hreq hne ha hb
  simp only [happ]
  refine ⟨trivial, trivial, hstore s, fun hset => ?_⟩
  simp only [hstore s]
  simp only [friendsOf, updateById_upsert, setDoc, if_true, Option.bind_some]
  apply addToSet_count
  unfold friendsOf at hset
  cases hsa : s a with
  | none => simp [blankUser]
  | some u =>
    rw [hsa] at hset
    simpa using hset

/-- Instance of C6 on the empty store: subject `a...a` adds `b...b` twice. -/
theorem addfriend_idempotent_witness :
    (app demoConfig (postAs "/users/addfriend" (some "bbbbbbbbbbbbbbbbbbbbbbbb") none)
        emptyStore).1.status = 201
    ∧ (app demoConfig (postAs "/users/addfriend" (some "bbbbbbbbbbbbbbbbbbbbbbbb") none)
        (app demoConfig (postAs "/users/addfriend" (some "bbbbbbbbbbbbbbbbbbbbbbbb") none)
          emptyStore).2).1.status = 201
    ∧ (app demoConfig (postAs "/users/addfriend" (some "bbbbbbbbbbbbbbbbbbbbbbbb") none)
        (app demoConfig (postAs "/users/addfriend" (some "bbbbbbbbbbbbbbbbbbbbbbbb") none)
          emptyStore).2).2
      = (app demoConfig (postAs "/users/addfriend" (some "bbbbbbbbbbbbbbbbbbbbbbbb") none)
          emptyStore).2
    ∧ (friendsOf emptyStore idA).Nodup
    ∧ (friendsOf
        (app demoConfig (postAs "/users/addfriend" (some "bbbbbbbbbbbbbbbbbbbbbbbb") none)
          (app demoConfig (postAs "/users/addfriend" (some "bbbbbbbbbbbbbbbbbbbbbbbb") none)
            emptyStore).2).2 idA).count idB = 1 :=
  have h := addfriend_idempotent demoConfig
    (postAs "/users/addfriend" (some "bbbbbbbbbbbbbbbbbbbbbbbb") none) emptyStore
    "aaaaaaaaaaaaaaaaaaaaaaaa" "bbbbbbbbbbbbbbbbbbbbbbbb" idA idB
    (by decide) (by decide) (by decide) (by decide)
  ⟨h.1, h.2.1, h.2.2.1, by decide, h.2.2.2 (by decide)⟩

/-- C7. Remove-friend does not upsert: for a subject `sub` and a different body
value `userId`, both valid object ids, with the target not among the friends of
the subject (also when the subject has no profile), the request is answered 200
and the store is unchanged; a subject without a profile still has none. -/
theorem removefriend_no_upsert (cfg : Config) (req : Request) (s : Store)
    (sub userId : String) (a b : ObjectId)
    (hreq : friendRequest cfg req "/users/removefriend" sub userId = true)
    (hne : userId ≠ sub) (ha : castObjectId sub = some a) (hb : castObjectId userId = some b)
    (hnot : b ∉ friendsOf s a) :
    (app cfg req s).1.status = 200
    ∧ (app cfg req s).2 = s
    ∧ (s a = none → (app cfg req s).2 a = none) := by
  have hstore : updateById s a (fun u => { u with friends := pull u.friends b }) false = s := by
    unfold updateById
    cases hsa : s a with
    | none => simp
    | some u =>
      simp only
      have hpull : pull u.friends b = u.friends := by
        apply pull_absent
        simpa [friendsOf, hsa] using hnot
      rw [hpull]
      exact setDoc_same s a u hsa
  rw [app_removefriend_accepted cfg req s sub userId a b hreq hne ha hb]
  exact ⟨rfl, hstore, fun h => by rw [hstore]; exact h⟩

/-- Instance of C7 on the empty store: the subject has no profile before and
none after. -/
theorem removefriend_no_upsert_witness :
    (app demoConfig (postAs "/users/removefriend" (some "bbbbbbbbbbbbbbbbbbbbbbbb") none)
        emptyStore).1.status = 200
    ∧ (app demoConfig (postAs "/users/removefriend" (some "bbbbbbbbbbbbbbbbbbbbbbbb") none)
        emptyStore).2 = emptyStore
    ∧ (emptyStore idA = none →
        (app demoConfig (postAs "/users/removefriend" (some "bbbbbbbbbbbbbbbbbbbbbbbb") none)
          emptyStore).2 idA = none) :=
  removefriend_no_upsert demoConfig
    (postAs "/users/removefriend" (some "bbbbbbbbbbbbbbbbbbbbbbbb") none) emptyStore
    "aaaaaaaaaaaaaaaaaaaaaaaa" "bbbbbbbbbbbbbbbbbbbbbbbb" idA idB
    (by decide) (by decide) (by decide) (by decide) (by decide)

/-- C9, as stated, fails on a bare profile: after the add-friend upsert alone the
profile has no stored `exp`, and `GET /users/info` returns it with `level: null`
rather than level 0. -/
theorem info_level_counterexample :
    (app demoConfig (getFor "/users/info" ["aaaaaaaaaaaaaaaaaaaaaaaa"])
        (app demoConfig (postAs "/users/addfriend" (some "bbbbbbbbbbbbbbbbbbbbbbbb") none)
          emptyStore).2).1
      = { status := 200,
          body := Body.jsonList
            [[("id", Val.oid idA), ("level", Val.null), ("friends", Val.oids [idB])]] }
    ∧ ¬ (List.lookup "level" [("id", Val.oid idA), ("level", Val.null), ("friends", Val.oids [idB])]
          = some (Val.num (Int.fdiv 0 200))) := by
  decide

/-- C9, amended: every profile object returned by `GET /users/info` belongs to a
stored profile, and when that profile stores `exp` the object carries that
`exp` and `level = floor(exp / 200)`. -/
theorem info_level_derived (cfg : Config) (req : Request) (s : Store) (o : Obj)
    (hm : req.method = Method.GET) (hp : req.path = "/users/info")
    (ho : o ∈ responseObjects (app cfg req s).1) :
    ∃ i u, s i = some u ∧ o.lookup "id" = some (Val.oid i)
      ∧ ∀ e : Int, u.exp = some e →
          o.lookup "exp" = some (Val.num e)
          ∧ o.lookup "level" = some (Val.num (Int.floor ((e : ℚ) / 200))) := by
  obtain ⟨i, u, hs, rfl⟩ := info_objects cfg req s o hm hp ho
  refine ⟨i, u, hs, ?_, ?_⟩
  · simp [cloneItem, projectStage, List.lookup]
  · intro e he
    rw [← fdiv_200_eq_floor]
    cases hk : u.totalKill <;> cases hmk : u.maxKill <;>
      simp [cloneItem, projectStage, included, List.lookup, he, hk, hmk, List.filter]

/-- Instance of amended C9: a profile saved with `exp = 599` is returned with
`level = floor(599 / 200)`, which is 2; 199 gives 0 and 200 gives 1. -/
theorem info_level_derived_witness :
    (app demoConfig (getFor "/users/info" ["aaaaaaaaaaaaaaaaaaaaaaaa"])
        (app demoConfig (saveAs [⟨"aaaaaaaaaaaaaaaaaaaaaaaa", 4, 599, 3⟩]) emptyStore).2).1
      = { status := 200,
          body := Body.jsonList
            [[("id", Val.oid idA), ("level", Val.num 2), ("totalKill", Val.num 4),
              ("maxKill", Val.num 3), ("exp", Val.num 599), ("totalPlay", Val.num 1)]] }
    ∧ Int.fdiv 199 200 = 0 ∧ Int.fdiv 200 200 = 1 ∧ Int.fdiv 599 200 = 2
    ∧ ∃ i u, (app demoConfig (saveAs [⟨"aaaaaaaaaaaaaaaaaaaaaaaa", 4, 599, 3⟩]) emptyStore).2 i
          = some u
        ∧ List.lookup "id"
            [("id", Val.oid idA), ("level", Val.num 2), ("totalKill", Val.num 4),
             ("maxKill", Val.num 3), ("exp", Val.num 599), ("totalPlay", Val.num 1)]
          = some (Val.oid i)
        ∧ ∀ e : Int, u.exp = some e →
            List.lookup "exp"
              [("id", Val.oid idA), ("level", Val.num 2), ("totalKill", Val.num 4),
               ("maxKill", Val.num 3), ("exp", Val.num 599), ("totalPlay", Val.num 1)]
              = some (Val.num e)
            ∧ List.lookup "level"
              [("id", Val.oid idA), ("level", Val.num 2), ("totalKill", Val.num 4),
               ("maxKill", Val.num 3), ("exp", Val.num 599), ("totalPlay", Val.num 1)]
              = some (Val.num (Int.floor ((e : ℚ) / 200))) :=
  ⟨by decide, by decide, by decide, by decide,
   info_level_derived demoConfig (getFor "/users/info" ["aaaaaaaaaaaaaaaaaaaaaaaa"])
     (app demoConfig (saveAs [⟨"aaaaaaaaaaaaaaaaaaaaaaaa", 4, 599, 3⟩]) emptyStore).2
     [("id", Val.oid idA), ("level", Val.num 2), ("totalKill", Val.num 4),
      ("maxKill", Val.num 3), ("exp", Val.num 599), ("totalPlay", Val.num 1)]
     rfl rfl (by decide)⟩

/-- C10, as stated, fails: a profile created by a game save is returned with the
field `totalPlay`, which is outside the claimed set, and without `friends`. -/
theorem info_fields_counterexample :
    (responseObjects
        (app demoConfig (getFor "/users/info" ["aaaaaaaaaaaaaaaaaaaaaaaa"])
          (app demoConfig (saveAs [⟨"aaaaaaaaaaaaaaaaaaaaaaaa", 4, 599, 3⟩]) emptyStore).2).1).map
        fieldNames
      = [["id", "level", "totalKill", "maxKill", "exp", "totalPlay"]]
    ∧ "totalPlay" ∈ ["id", "level", "totalKill", "maxKill", "exp", "totalPlay"]
    ∧ "totalPlay" ∉ ["id", "level", "totalKill", "maxKill", "exp", "friends"]
    ∧ "friends" ∉ ["id", "level", "totalKill", "maxKill", "exp", "totalPlay"] := by
  decide

/-- C10, amended: every profile object of a 200 answer of `GET /users/info`
carries in `id` the `_id` of a stored profile and exposes `id`, `level` and
exactly those of `totalKill`, `maxKill`, `exp`, `totalPlay` and `friends` that
this profile stores; it exposes no other field. -/
theorem info_fields (cfg : Config) (req : Request) (s : Store) (o : Obj)
    (hm : req.method = Method.GET) (hp : req.path = "/users/info")
    (ho : o ∈ responseObjects (app cfg req s).1) :
    ∃ i u, s i = some u ∧ o.lookup "id" = some (Val.oid i)
      ∧ ∀ k : String, k ∈ fieldNames o ↔
        (k = "id" ∨ k = "level"
          ∨ (k = "totalKill" ∧ u.totalKill ≠ none)
          ∨ (k = "maxKill" ∧ u.maxKill ≠ none)
          ∨ (k = "exp" ∧ u.exp ≠ none)
          ∨ (k = "totalPlay" ∧ u.totalPlay ≠ none)
          ∨ (k = "friends" ∧ u.friends ≠ none)) := by
  obtain ⟨i, u, hs, rfl⟩ := info_objects cfg req s o hm hp ho
  refine ⟨i, u, hs, by simp [cloneItem, projectStage, List.lookup], fun k => ?_⟩
  rw [cloneItem_projectStage]
  simp only [fieldNames_append, List.mem_append, mem_fieldNames_included, ne_eq,
    Option.map_eq_none']
  simp [fieldNames, or_assoc]

/-- Instance of amended C10 on a profile that stores the four counters and no
`friends` field. -/
theorem info_fields_witness :
    ["id", "level", "totalKill", "maxKill", "exp", "totalPlay"]
      = fieldNames [("id", Val.oid idA), ("level", Val.num 2), ("totalKill", Val.num 4),
          ("maxKill", Val.num 3), ("exp", Val.num 599), ("totalPlay", Val.num 1)]
    ∧ ∃ i u, (app demoConfig (saveAs [⟨"aaaaaaaaaaaaaaaaaaaaaaaa", 4, 599, 3⟩]) emptyStore).2 i
          = some u
        ∧ List.lookup "id"
            [("id", Val.oid idA), ("level", Val.num 2), ("totalKill", Val.num 4),
             ("maxKill", Val.num 3), ("exp", Val.num 599), ("totalPlay", Val.num 1)]
          = some (Val.oid i)
        ∧ ∀ k : String,
            k ∈ fieldNames [("id", Val.oid idA), ("level", Val.num 2), ("totalKill", Val.num 4),
              ("maxKill", Val.num 3), ("exp", Val.num 599), ("totalPlay", Val.num 1)] ↔
            (k = "id" ∨ k = "level"
              ∨ (k = "totalKill" ∧ u.totalKill ≠ none)
              ∨ (k = "maxKill" ∧ u.maxKill ≠ none)
              ∨ (k = "exp" ∧ u.exp ≠ none)
              ∨ (k = "totalPlay" ∧ u.totalPlay ≠ none)
              ∨ (k = "friends" ∧ u.friends ≠ none)) :=
  ⟨by decide,
   info_fields demoConfig (getFor "/users/info" ["aaaaaaaaaaaaaaaaaaaaaaaa"])
     (app demoConfig (saveAs [⟨"aaaaaaaaaaaaaaaaaaaaaaaa", 4, 599, 3⟩]) emptyStore).2
     [("id", Val.oid idA), ("level", Val.num 2), ("totalKill", Val.num 4),
      ("maxKill", Val.num 3), ("exp", Val.num 599), ("totalPlay", Val.num 1)]
     rfl rfl (by decide)⟩

end ResourceService
